import Mathlib

/-!
Shallow embedding of the buffering and framing core of the `link` TCP
message library: the buffer pool (`bufferPool`), the incoming and outgoing
message buffers (`InBuffer`, `OutBuffer`) with their binary codec
primitives, and the length-prefixed framing protocol (`PacketN`,
`PNWriter`, `PNReader`).

Modelling conventions:
* Go byte slices are modelled by `GoSlice`: the full backing array up to
  the slice capacity, together with the slice length.  Bytes are `Nat`
  values; every Go `byte(e)` conversion is written as `e % 2 ^ 8` and
  every right shift `e >> k` as `e / 2 ^ k`.
* Machine integers are `Nat` (unsigned) or `Int` (Go `int`, `int32`), with
  explicit `% 2 ^ w` reductions at each conversion the Go code performs.
* Go `float32`/`float64` values are represented by their IEEE-754 bit
  patterns (a `Nat`), so `math.Float32bits` / `math.Float32frombits` are
  bit-pattern identities and float comparisons are bit-pattern
  comparisons.
* Fallible or panicking operations return `Option` (with `none` for the
  panic) or a dedicated result type naming each panic.
* A network connection is a finite list of the bytes the peer delivers
  before end of stream.
-/

/-- A Go byte slice: `arr` is the backing array out to the slice's
capacity (so the capacity is `arr.length`), and `len` is the slice
length.  The bytes visible through the slice are `arr.take len`; a
reslice within capacity can expose backing bytes beyond `len`. -/
structure GoSlice where
  arr : List Nat
  len : Nat
deriving DecidableEq

namespace GoSlice

/-- Bytes visible through the slice, `s[0:len(s)]`. -/
def view (s : GoSlice) : List Nat := s.arr.take s.len

/-- Go `cap(s)`. -/
def bcap (s : GoSlice) : Nat := s.arr.length

/-- Go `make([]byte, n)`: `n` zero bytes, capacity `n`. -/
def mk0 (n : Nat) : GoSlice := ⟨List.replicate n 0, n⟩

/-- Go `make([]byte, 0, c)`: length 0, capacity `c`. -/
def mkCap (c : Nat) : GoSlice := ⟨List.replicate c 0, 0⟩

/-- Go `s[0:n]` for `n` within capacity: keeps the backing array and
changes only the visible length. -/
def reslice (s : GoSlice) (n : Nat) : GoSlice := ⟨s.arr, n⟩

/-- Go `append(s, p...)`.  When the appended bytes fit in the current
capacity they overwrite the backing array in place after `len`;
otherwise Go allocates a larger array holding the old visible bytes
followed by `p` (the model gives the reallocated array exactly the
required capacity; Go may over-allocate, which no verified property
depends on). -/
def appendBytes (s : GoSlice) (p : List Nat) : GoSlice :=
  if s.len + p.length ≤ s.arr.length then
    ⟨(s.arr.take s.len ++ p) ++ s.arr.drop (s.len + p.length), s.len + p.length⟩
  else
    ⟨s.arr.take s.len ++ p, s.len + p.length⟩

end GoSlice

/-- The two byte orders of Go `encoding/binary` used by the library. -/
inductive ByteOrder
  | littleEndian
  | bigEndian
deriving DecidableEq

namespace ByteOrder

/-- Model of `binary.ByteOrder.Uint16` from Go `encoding/binary`:
reassemble two bytes in the given order. -/
def uint16 : ByteOrder → List Nat → Nat
  | .littleEndian, b => b.getD 0 0 + b.getD 1 0 * 2 ^ 8
  | .bigEndian, b => b.getD 1 0 + b.getD 0 0 * 2 ^ 8

/-- Model of `binary.ByteOrder.Uint32`: reassemble four bytes in the
given order. -/
def uint32 : ByteOrder → List Nat → Nat
  | .littleEndian, b =>
      b.getD 0 0 + b.getD 1 0 * 2 ^ 8 + b.getD 2 0 * 2 ^ 16 + b.getD 3 0 * 2 ^ 24
  | .bigEndian, b =>
      b.getD 3 0 + b.getD 2 0 * 2 ^ 8 + b.getD 1 0 * 2 ^ 16 + b.getD 0 0 * 2 ^ 24

/-- Model of `binary.ByteOrder.Uint64`: reassemble eight bytes in the
given order. -/
def uint64 : ByteOrder → List Nat → Nat
  | .littleEndian, b =>
      b.getD 0 0 + b.getD 1 0 * 2 ^ 8 + b.getD 2 0 * 2 ^ 16 + b.getD 3 0 * 2 ^ 24 +
      b.getD 4 0 * 2 ^ 32 + b.getD 5 0 * 2 ^ 40 + b.getD 6 0 * 2 ^ 48 + b.getD 7 0 * 2 ^ 56
  | .bigEndian, b =>
      b.getD 7 0 + b.getD 6 0 * 2 ^ 8 + b.getD 5 0 * 2 ^ 16 + b.getD 4 0 * 2 ^ 24 +
      b.getD 3 0 * 2 ^ 32 + b.getD 2 0 * 2 ^ 40 + b.getD 1 0 * 2 ^ 48 + b.getD 0 0 * 2 ^ 56

/-- Model of `binary.ByteOrder.PutUint32` as the four bytes it stores,
in storage order. -/
def putUint32Bytes : ByteOrder → Nat → List Nat
  | .littleEndian, v => [v % 2 ^ 8, v / 2 ^ 8 % 2 ^ 8, v / 2 ^ 16 % 2 ^ 8, v / 2 ^ 24 % 2 ^ 8]
  | .bigEndian, v => [v / 2 ^ 24 % 2 ^ 8, v / 2 ^ 16 % 2 ^ 8, v / 2 ^ 8 % 2 ^ 8, v % 2 ^ 8]

end ByteOrder

namespace Utf8

/-- Go `utf8.RuneError`, the replacement character U+FFFD. -/
def RuneError : Nat := 0xFFFD

/-- Model of Go `utf8.EncodeRune`: the UTF-8 bytes written for rune `r`
(a Go `rune` is `int32`; the function branches on `uint32(r)`).
Out-of-range and surrogate runes encode as `RuneError`.  Each Go
expression `byte(mask | bits)` with disjoint mask and bits is written as
an addition of the mask and the bit field. -/
def encodeRune (r : Int) : List Nat :=
  let u : Nat := (r % 2 ^ 32).toNat
  if u < 0x80 then [u]
  else if u < 0x800 then [0xC0 + u / 64, 0x80 + u % 64]
  else if 0x10FFFF < u ∨ (0xD800 ≤ u ∧ u ≤ 0xDFFF) then [0xEF, 0xBF, 0xBD]
  else if u < 0x10000 then [0xE0 + u / 4096, 0x80 + u / 64 % 64, 0x80 + u % 64]
  else [0xF0 + u / 262144, 0x80 + u / 4096 % 64, 0x80 + u / 64 % 64, 0x80 + u % 64]

/-- Lower bound of the accepted first continuation byte given the lead
byte, from Go `utf8`'s `acceptRanges` table. -/
def acceptLo (b0 : Nat) : Nat :=
  if b0 = 0xE0 then 0xA0 else if b0 = 0xF0 then 0x90 else 0x80

/-- Upper bound of the accepted first continuation byte given the lead
byte, from Go `utf8`'s `acceptRanges` table. -/
def acceptHi (b0 : Nat) : Nat :=
  if b0 = 0xED then 0x9F else if b0 = 0xF4 then 0x8F else 0xBF

/-- Model of Go `utf8.DecodeRune`: the decoded rune value and its
encoded width.  Empty input yields `(RuneError, 0)`; a malformed prefix
yields `(RuneError, 1)`.  Each Go masking expression `b & (2^k - 1)` is
written as `b % 2^k`. -/
def decodeRune (p : List Nat) : Nat × Nat :=
  match p with
  | [] => (RuneError, 0)
  | b0 :: t =>
    if b0 < 0x80 then (b0, 1)
    else if b0 < 0xC2 then (RuneError, 1)
    else if b0 < 0xE0 then
      match t with
      | b1 :: _ =>
        if b1 < 0x80 ∨ 0xBF < b1 then (RuneError, 1)
        else (b0 % 32 * 64 + b1 % 64, 2)
      | _ => (RuneError, 1)
    else if b0 < 0xF0 then
      match t with
      | b1 :: b2 :: _ =>
        if b1 < acceptLo b0 ∨ acceptHi b0 < b1 then (RuneError, 1)
        else if b2 < 0x80 ∨ 0xBF < b2 then (RuneError, 1)
        else (b0 % 16 * 4096 + b1 % 64 * 64 + b2 % 64, 3)
      | _ => (RuneError, 1)
    else if b0 < 0xF5 then
      match t with
      | b1 :: b2 :: b3 :: _ =>
        if b1 < acceptLo b0 ∨ acceptHi b0 < b1 then (RuneError, 1)
        else if b2 < 0x80 ∨ 0xBF < b2 then (RuneError, 1)
        else if b3 < 0x80 ∨ 0xBF < b3 then (RuneError, 1)
        else (b0 % 8 * 262144 + b1 % 64 * 4096 + b2 % 64 * 64 + b3 % 64, 4)
      | _ => (RuneError, 1)
    else (RuneError, 1)

end Utf8

/-- Model of Go `math.Float32bits`: with float32 values represented by
their bit patterns, this is reduction into the 32-bit range. -/
def Float32bits (f : Nat) : Nat := f % 2 ^ 32

/-- Model of Go `math.Float32frombits`: the identity on bit patterns. -/
def Float32frombits (n : Nat) : Nat := n

/-- Model of Go `math.Float64bits`: reduction into the 64-bit range. -/
def Float64bits (f : Nat) : Nat := f % 2 ^ 64

/-- Model of Go `math.Float64frombits`: the identity on bit patterns. -/
def Float64frombits (n : Nat) : Nat := n

/-- Incoming message buffer: arena `Data`, read cursor `ReadPos`, and
the freed flag checked by `Free`. -/
structure InBuffer where
  Data : GoSlice
  ReadPos : Nat
  isFreed : Bool
deriving DecidableEq

namespace InBuffer

/-- `InBuffer.Prepare`: grow the arena by a fresh allocation when the
capacity is insufficient, otherwise reslice in place to `size`. -/
def Prepare (b : InBuffer) (size : Nat) : InBuffer :=
  if b.Data.bcap < size then {b with Data := GoSlice.mk0 size}
  else {b with Data := b.Data.reslice size}

/-- `InBuffer.Slice`: the Go slice expression `in.Data[ReadPos :
ReadPos+n]` (legal out to the capacity of the backing array) and the
advanced cursor; `none` models the bounds panic past the capacity. -/
def Slice (b : InBuffer) (n : Nat) : Option (List Nat × InBuffer) :=
  if b.ReadPos + n ≤ b.Data.bcap then
    some ((b.Data.arr.take (b.ReadPos + n)).drop b.ReadPos,
      {b with ReadPos := b.ReadPos + n})
  else none

/-- `InBuffer.ReadBytes`: an owned copy of the next `n` bytes. -/
def ReadBytes (b : InBuffer) (n : Nat) : Option (List Nat × InBuffer) :=
  b.Slice n

/-- `InBuffer.ReadString`: the next `n` bytes as a string (Go strings
are byte sequences, modelled as byte lists). -/
def ReadString (b : InBuffer) (n : Nat) : Option (List Nat × InBuffer) :=
  b.Slice n

/-- `InBuffer.ReadRune`: UTF-8 decode at the cursor, against the slice
`in.Data[ReadPos:]` whose upper bound is the arena length. -/
def ReadRune (b : InBuffer) : Nat × InBuffer :=
  let d := Utf8.decodeRune (b.Data.view.drop b.ReadPos)
  (d.1, {b with ReadPos := b.ReadPos + d.2})

/-- `InBuffer.ReadUint8`. -/
def ReadUint8 (b : InBuffer) : Option (Nat × InBuffer) :=
  (b.Slice 1).map (fun r => (r.1.getD 0 0, r.2))

/-- `InBuffer.ReadUint16LE`. -/
def ReadUint16LE (b : InBuffer) : Option (Nat × InBuffer) :=
  (b.Slice 2).map (fun r => (ByteOrder.littleEndian.uint16 r.1, r.2))

/-- `InBuffer.ReadUint16BE`. -/
def ReadUint16BE (b : InBuffer) : Option (Nat × InBuffer) :=
  (b.Slice 2).map (fun r => (ByteOrder.bigEndian.uint16 r.1, r.2))

/-- `InBuffer.ReadUint32LE`. -/
def ReadUint32LE (b : InBuffer) : Option (Nat × InBuffer) :=
  (b.Slice 4).map (fun r => (ByteOrder.littleEndian.uint32 r.1, r.2))

/-- `InBuffer.ReadUint32BE`. -/
def ReadUint32BE (b : InBuffer) : Option (Nat × InBuffer) :=
  (b.Slice 4).map (fun r => (ByteOrder.bigEndian.uint32 r.1, r.2))

/-- `InBuffer.ReadUint64LE`. -/
def ReadUint64LE (b : InBuffer) : Option (Nat × InBuffer) :=
  (b.Slice 8).map (fun r => (ByteOrder.littleEndian.uint64 r.1, r.2))

/-- `InBuffer.ReadUint64BE`. -/
def ReadUint64BE (b : InBuffer) : Option (Nat × InBuffer) :=
  (b.Slice 8).map (fun r => (ByteOrder.bigEndian.uint64 r.1, r.2))

/-- `InBuffer.ReadFloat32LE`: bit-pattern reinterpretation of
`ReadUint32LE`. -/
def ReadFloat32LE (b : InBuffer) : Option (Nat × InBuffer) :=
  (b.ReadUint32LE).map (fun r => (Float32frombits r.1, r.2))

/-- `InBuffer.ReadFloat32BE`. -/
def ReadFloat32BE (b : InBuffer) : Option (Nat × InBuffer) :=
  (b.ReadUint32BE).map (fun r => (Float32frombits r.1, r.2))

/-- `InBuffer.ReadFloat64LE`. -/
def ReadFloat64LE (b : InBuffer) : Option (Nat × InBuffer) :=
  (b.ReadUint64LE).map (fun r => (Float64frombits r.1, r.2))

/-- `InBuffer.ReadFloat64BE`. -/
def ReadFloat64BE (b : InBuffer) : Option (Nat × InBuffer) :=
  (b.ReadUint64BE).map (fun r => (Float64frombits r.1, r.2))

end InBuffer

/-- Outgoing message buffer: arena `Data`, the freed flag, and the
broadcast flag with its reference count (Go `int32`). -/
structure OutBuffer where
  Data : GoSlice
  isFreed : Bool
  isBroadcast : Bool
  refCount : Int
deriving DecidableEq

namespace OutBuffer

/-- `OutBuffer.Prepare`: fresh zero-length arena of capacity `size`
when the capacity is insufficient, otherwise truncate in place. -/
def Prepare (o : OutBuffer) (size : Nat) : OutBuffer :=
  if o.Data.bcap < size then {o with Data := GoSlice.mkCap size}
  else {o with Data := o.Data.reslice 0}

/-- `OutBuffer.Append`: append bytes to the arena. -/
def Append (o : OutBuffer) (p : List Nat) : OutBuffer :=
  {o with Data := o.Data.appendBytes p}

/-- `OutBuffer.WriteBytes`. -/
def WriteBytes (o : OutBuffer) (d : List Nat) : OutBuffer := o.Append d

/-- `OutBuffer.WriteString` (Go strings modelled as byte lists). -/
def WriteString (o : OutBuffer) (s : List Nat) : OutBuffer := o.Append s

/-- `OutBuffer.WriteRune`: append the UTF-8 encoding of one rune. -/
def WriteRune (o : OutBuffer) (r : Int) : OutBuffer :=
  o.Append (Utf8.encodeRune r)

/-- `OutBuffer.WriteUint8`. -/
def WriteUint8 (o : OutBuffer) (v : Nat) : OutBuffer :=
  o.Append [v % 2 ^ 8]

/-- `OutBuffer.WriteUint16LE`: bytes `byte(v), byte(v >> 8)`. -/
def WriteUint16LE (o : OutBuffer) (v : Nat) : OutBuffer :=
  o.Append [v % 2 ^ 8, v / 2 ^ 8 % 2 ^ 8]

/-- `OutBuffer.WriteUint16BE`. -/
def WriteUint16BE (o : OutBuffer) (v : Nat) : OutBuffer :=
  o.Append [v / 2 ^ 8 % 2 ^ 8, v % 2 ^ 8]

/-- `OutBuffer.WriteUint32LE`. -/
def WriteUint32LE (o : OutBuffer) (v : Nat) : OutBuffer :=
  o.Append [v % 2 ^ 8, v / 2 ^ 8 % 2 ^ 8, v / 2 ^ 16 % 2 ^ 8, v / 2 ^ 24 % 2 ^ 8]

/-- `OutBuffer.WriteUint32BE`. -/
def WriteUint32BE (o : OutBuffer) (v : Nat) : OutBuffer :=
  o.Append [v / 2 ^ 24 % 2 ^ 8, v / 2 ^ 16 % 2 ^ 8, v / 2 ^ 8 % 2 ^ 8, v % 2 ^ 8]

/-- `OutBuffer.WriteUint64LE`. -/
def WriteUint64LE (o : OutBuffer) (v : Nat) : OutBuffer :=
  o.Append [v % 2 ^ 8, v / 2 ^ 8 % 2 ^ 8, v / 2 ^ 16 % 2 ^ 8, v / 2 ^ 24 % 2 ^ 8,
    v / 2 ^ 32 % 2 ^ 8, v / 2 ^ 40 % 2 ^ 8, v / 2 ^ 48 % 2 ^ 8, v / 2 ^ 56 % 2 ^ 8]

/-- `OutBuffer.WriteUint64BE`. -/
def WriteUint64BE (o : OutBuffer) (v : Nat) : OutBuffer :=
  o.Append [v / 2 ^ 56 % 2 ^ 8, v / 2 ^ 48 % 2 ^ 8, v / 2 ^ 40 % 2 ^ 8, v / 2 ^ 32 % 2 ^ 8,
    v / 2 ^ 24 % 2 ^ 8, v / 2 ^ 16 % 2 ^ 8, v / 2 ^ 8 % 2 ^ 8, v % 2 ^ 8]

/-- `OutBuffer.WriteFloat32LE`: the bit pattern through `WriteUint32LE`. -/
def WriteFloat32LE (o : OutBuffer) (f : Nat) : OutBuffer :=
  o.WriteUint32LE (Float32bits f)

/-- `OutBuffer.WriteFloat32BE`. -/
def WriteFloat32BE (o : OutBuffer) (f : Nat) : OutBuffer :=
  o.WriteUint32BE (Float32bits f)

/-- `OutBuffer.WriteFloat64LE`. -/
def WriteFloat64LE (o : OutBuffer) (f : Nat) : OutBuffer :=
  o.WriteUint64LE (Float64bits f)

/-- `OutBuffer.WriteFloat64BE`. -/
def WriteFloat64BE (o : OutBuffer) (f : Nat) : OutBuffer :=
  o.WriteUint64BE (Float64bits f)

/-- `OutBuffer.broadcastUse`: atomically increment the reference count. -/
def broadcastUse (o : OutBuffer) : OutBuffer :=
  {o with refCount := o.refCount + 1}

end OutBuffer

/-- The process-wide buffer pool: the three recycling stores (incoming
shells, outgoing shells, byte arenas), the instrumentation counters, and
the two configuration sizes.  The stores are named `inList`, `outList`,
`dataList` after the Go fields `in`, `out`, `data`. -/
structure bufferPool where
  inList : List InBuffer
  outList : List OutBuffer
  dataList : List GoSlice
  getIn : Nat
  newIn : Nat
  getOut : Nat
  newOut : Nat
  getData : Nat
  newData : Nat
  freeCount : Nat
  dropCount : Nat
  bufferInitSize : Nat
  bufferMaxSize : Nat
deriving DecidableEq

namespace bufferPool

/-- `newBufferPool`: empty stores, zero counters, initial arena capacity
4096, maximum recyclable capacity 102400. -/
def newBufferPool : bufferPool :=
  ⟨[], [], [], 0, 0, 0, 0, 0, 0, 0, 0, 4096, 102400⟩

/-- Modelled from the spec: the recycling store semantics of the external
`sync.Pool` type (package `github.com/catinred2/sync`, not in the
observed source).  Per the spec an acquire "if no recycled shell is
available, constructs a fresh one and increments the ... allocation
counter"; the model pops a recycled object when one is stored and
otherwise runs the pool's `New` function, here inlined: a zero-valued
shell and a `newIn` counter increment. -/
def getInShell (pool : bufferPool) : bufferPool × InBuffer :=
  match pool.inList with
  | [] => ({pool with newIn := pool.newIn + 1}, ⟨⟨[], 0⟩, 0, false⟩)
  | s :: rest => ({pool with inList := rest}, s)

/-- Modelled from the spec: `sync.Pool` store semantics for outgoing
shells, as in `getInShell`. -/
def getOutShell (pool : bufferPool) : bufferPool × OutBuffer :=
  match pool.outList with
  | [] => ({pool with newOut := pool.newOut + 1}, ⟨⟨[], 0⟩, false, false, 0⟩)
  | s :: rest => ({pool with outList := rest}, s)

/-- Modelled from the spec: `sync.Pool` store semantics for byte arenas;
the `New` function is `make([]byte, 0, pool.bufferInitSize)` with a
`newData` counter increment. -/
def getArena (pool : bufferPool) : bufferPool × GoSlice :=
  match pool.dataList with
  | [] => ({pool with newData := pool.newData + 1}, GoSlice.mkCap pool.bufferInitSize)
  | a :: rest => ({pool with dataList := rest}, a)

/-- `bufferPool.GetInBuffer`: count the request for a shell and an
arena, draw both, pair them, and clear the freed flag. -/
def GetInBuffer (pool : bufferPool) : bufferPool × InBuffer :=
  let p1 := {pool with getIn := pool.getIn + 1, getData := pool.getData + 1}
  let r1 := getInShell p1
  let r2 := getArena r1.1
  (r2.1, {r1.2 with Data := r2.2, isFreed := false})

/-- `bufferPool.GetOutBuffer`: as `GetInBuffer`, additionally clearing
the broadcast flag and the reference count. -/
def GetOutBuffer (pool : bufferPool) : bufferPool × OutBuffer :=
  let p1 := {pool with getOut := pool.getOut + 1, getData := pool.getData + 1}
  let r1 := getOutShell p1
  let r2 := getArena r1.1
  (r2.1, {r1.2 with Data := r2.2, isFreed := false, isBroadcast := false, refCount := 0})

/-- `bufferPool.PutInBuffer`: count the free; drop shell and arena
without recycling when the arena capacity exceeds the maximum, counting
the drop; otherwise store the truncated arena and the cleared, freed
shell.  Returns the pool and the shell's state after the call (the Go
caller still holds the same pointer). -/
def PutInBuffer (pool : bufferPool) (b : InBuffer) : bufferPool × InBuffer :=
  let p1 := {pool with freeCount := pool.freeCount + 1}
  if pool.bufferMaxSize < b.Data.bcap then
    ({p1 with dropCount := p1.dropCount + 1}, b)
  else
    let b' : InBuffer := ⟨⟨[], 0⟩, 0, true⟩
    ({p1 with dataList := b.Data.reslice 0 :: p1.dataList, inList := b' :: p1.inList}, b')

/-- `bufferPool.PutOutBuffer`: as `PutInBuffer`; the broadcast flag and
the reference count of the shell are left untouched. -/
def PutOutBuffer (pool : bufferPool) (o : OutBuffer) : bufferPool × OutBuffer :=
  let p1 := {pool with freeCount := pool.freeCount + 1}
  if pool.bufferMaxSize < o.Data.bcap then
    ({p1 with dropCount := p1.dropCount + 1}, o)
  else
    let o' : OutBuffer := ⟨⟨[], 0⟩, true, o.isBroadcast, o.refCount⟩
    ({p1 with dataList := o.Data.reslice 0 :: p1.dataList, outList := o' :: p1.outList}, o')

end bufferPool

/-- `InBuffer.Free`: the double-free guard, then release to the pool;
`none` models the panic. -/
def InBuffer.Free (b : InBuffer) (pool : bufferPool) : Option (bufferPool × InBuffer) :=
  if b.isFreed then none else some (pool.PutInBuffer b)

/-- `OutBuffer.Free`: the double-free guard, then release to the pool;
`none` models the panic. -/
def OutBuffer.Free (o : OutBuffer) (pool : bufferPool) : Option (bufferPool × OutBuffer) :=
  if o.isFreed then none else some (pool.PutOutBuffer o)

/-- `OutBuffer.broadcastFree`: when the buffer is a broadcast buffer,
atomically decrement the reference count and free the buffer when the
decremented count is exactly zero (the Go `&&` short-circuits, so the
count is untouched for a non-broadcast buffer). -/
def OutBuffer.broadcastFree (o : OutBuffer) (pool : bufferPool) :
    Option (bufferPool × OutBuffer) :=
  if o.isBroadcast then
    let o' : OutBuffer := {o with refCount := o.refCount - 1}
    if o'.refCount = 0 then o'.Free pool else some (pool, o')
  else some (pool, o)

/-- The `{packet, N}` protocol: header width `n`, byte order `bo`,
protocol identifier `id` (a Go `int`). -/
structure PNProtocol where
  n : Nat
  bo : ByteOrder
  id : Int
deriving DecidableEq

/-- `PacketN`: construct a `{packet, N}` protocol.  The source ignores
the requested header width and stores 8. -/
def PacketN (n : Nat) (bo : ByteOrder) (id : Int) : PNProtocol :=
  let _ := n
  ⟨8, bo, id⟩

/-- The `{packet, N}` writer.  The `maxsize` field is Modelled from the
spec: it is the embedded `SimpleSettings` maximum payload size ("if a
maximum payload size is configured and exceeded, fail fatally"), whose
declaration is not in the observed source; its Go zero value 0 means no
limit. -/
structure PNWriter where
  maxsize : Nat
  n : Nat
  bo : ByteOrder
  id : Int
deriving DecidableEq

/-- `NewPNWriter`: the settings are zero-valued, so no maximum payload
size is configured. -/
def NewPNWriter (n : Nat) (bo : ByteOrder) (id : Int) : PNWriter :=
  ⟨0, n, bo, id⟩

/-- `PNProtocol.NewWriter`. -/
def PNProtocol.NewWriter (p : PNProtocol) : PNWriter :=
  NewPNWriter p.n p.bo p.id

/-- The `{packet, N}` reader: settings, configuration, and the reusable
header scratch buffer `head`.  As in `PNWriter`, `maxsize` is Modelled
from the spec (embedded `SimpleSettings`, zero value 0 = no limit). -/
structure PNReader where
  maxsize : Nat
  n : Nat
  bo : ByteOrder
  id : Int
  head : List Nat
deriving DecidableEq

/-- `NewPNReader`: zero-valued settings and a header scratch buffer of
`n` zero bytes. -/
def NewPNReader (n : Nat) (bo : ByteOrder) (id : Int) : PNReader :=
  ⟨0, n, bo, id, List.replicate n 0⟩

/-- `PNProtocol.NewReader`. -/
def PNProtocol.NewReader (p : PNProtocol) : PNReader :=
  NewPNReader p.n p.bo p.id

/-- Modelled from the spec: the framing layer's `OutBuffer` interface
carries a two-argument `Prepare(head, size)` absent from the observed
buffer source ("reserve header-width + payloadSize bytes in the buffer
(via Prepare), leaving header bytes zero-filled"), together with the Go
comment on `BeginPacket`: "If the size large than the buff capacity, the
buff will be dropped and a new buffer will be created".  The arena is
reallocated at capacity `size` when too small, the visible length
becomes `head` and the header bytes are zeroed. -/
def OutBuffer.PrepareHead (o : OutBuffer) (head size : Nat) : OutBuffer :=
  if o.Data.bcap < size then
    {o with Data := ⟨List.replicate size 0, head⟩}
  else
    {o with Data := ⟨List.replicate head 0 ++ o.Data.arr.drop head, head⟩}

/-- `OutBuffer.Len` of the framing layer's buffer interface: the arena
length. -/
def OutBuffer.Len (o : OutBuffer) : Nat := o.Data.len

/-- `OutBuffer.Get` of the framing layer's buffer interface: the bytes
visible through the arena. -/
def OutBuffer.Get (o : OutBuffer) : List Nat := o.Data.view

/-- `PNWriter.BeginPacket`: reserve `n + size` bytes and leave the
cursor after the header. -/
def PNWriter.BeginPacket (w : PNWriter) (size : Nat) (o : OutBuffer) : OutBuffer :=
  o.PrepareHead w.n (w.n + size)

/-- Result of `PNWriter.EndPacket`: the stamped buffer, or one of the
panics (`panic("too large packet")`, `panic("unsupported packet head
size")`, or the bounds panic of `PutUint32` on a buffer shorter than the
header). -/
inductive EndResult
  | ok (buf : OutBuffer)
  | panicTooLarge
  | panicUnsupportedHead
  | panicBounds
deriving DecidableEq

/-- `PNWriter.EndPacket`: payload size is the buffer length minus the
header width (a Go `int` subtraction); an oversize payload panics when a
maximum is configured; only the 8-byte header case is implemented,
stamping `uint32(id)` at bytes 0–3 and `uint32(size)` at bytes 4–7 in
the configured byte order. -/
def PNWriter.EndPacket (w : PNWriter) (o : OutBuffer) : EndResult :=
  let size : Int := (o.Len : Int) - (w.n : Int)
  if 0 < w.maxsize ∧ (w.maxsize : Int) < size then .panicTooLarge
  else if w.n = 8 then
    if 8 ≤ o.Data.len then
      .ok {o with Data :=
        ⟨w.bo.putUint32Bytes (w.id % 2 ^ 32).toNat ++
         w.bo.putUint32Bytes (size % 2 ^ 32).toNat ++ o.Data.arr.drop 8, o.Data.len⟩}
    else .panicBounds
  else .panicUnsupportedHead

/-- The transport errors of Go `io.ReadFull` over a finite stream:
`io.EOF` when no byte is available, `io.ErrUnexpectedEOF` after a
partial read. -/
inductive IOErr
  | eof
  | unexpectedEOF
deriving DecidableEq

/-- Model of Go `io.ReadFull` over a finite byte stream: either the `n`
bytes read together with the rest of the stream, or the transport
error. -/
def readFull (src : List Nat) (n : Nat) : (List Nat × List Nat) ⊕ IOErr :=
  if n ≤ src.length then Sum.inl (src.take n, src.drop n)
  else if src.length = 0 then Sum.inr .eof
  else Sum.inr .unexpectedEOF

/-- Result of `PNReader.ReadPacket`: success or a transport error, each
carrying the reader (with its mutated header scratch), the rest of the
stream, and the supplied buffer's state; the distinct `PacketTooLargeError`
return; or the `panic("unsupported packet head size")`. -/
inductive ReadResult
  | ok (r : PNReader) (rest : List Nat) (buf : InBuffer)
  | err (e : IOErr) (r : PNReader) (rest : List Nat) (buf : InBuffer)
  | tooLarge (r : PNReader) (rest : List Nat) (buf : InBuffer)
  | panicHead
deriving DecidableEq

/-- `PNReader.ReadPacket`: fill the header scratch with `io.ReadFull`
(propagating its error, with the scratch partially overwritten by the
bytes that did arrive); decode the payload length from header bytes 4–7
in the 8-byte case, panicking for any other width; return
`PacketTooLargeError` when a maximum is configured and exceeded; succeed
at once on a zero length; otherwise size the buffer arena with `Prepare`
and fill it with `io.ReadFull`, propagating its error. -/
def PNReader.ReadPacket (r : PNReader) (conn : List Nat) (buf : InBuffer) : ReadResult :=
  match readFull conn r.head.length with
  | Sum.inr e => .err e {r with head := conn ++ r.head.drop conn.length} [] buf
  | Sum.inl hrest =>
    let r1 : PNReader := {r with head := hrest.1}
    if r1.n = 8 then
      let size := r1.bo.uint32 (hrest.1.drop 4)
      if 0 < r1.maxsize ∧ r1.maxsize < size then .tooLarge r1 hrest.2 buf
      else if size = 0 then .ok r1 hrest.2 buf
      else
        let buf1 := buf.Prepare size
        match readFull hrest.2 size with
        | Sum.inl prest =>
            .ok r1 prest.2
              {buf1 with Data := ⟨prest.1 ++ buf1.Data.arr.drop size, buf1.Data.len⟩}
        | Sum.inr e =>
            .err e r1 []
              {buf1 with Data := ⟨hrest.2 ++ buf1.Data.arr.drop hrest.2.length, buf1.Data.len⟩}
    else .panicHead

/-- An incoming buffer holding exactly the bytes `bs`, cursor at the
start: the state the framing reader hands to application code. -/
def mkIn (bs : List Nat) : InBuffer := ⟨⟨bs, bs.length⟩, 0, false⟩

/-- Fixture: a pool whose maximum recyclable capacity was configured
down to 1 through `PoolMaxDataSize`. -/
def poolSmall : bufferPool := {bufferPool.newBufferPool with bufferMaxSize := 1}

/-- Fixture: a live incoming buffer whose arena capacity 1 is within
`poolSmall`'s maximum. -/
def inSmall : InBuffer := ⟨⟨[0], 0⟩, 0, false⟩

/-- Fixture: a live incoming buffer whose arena capacity 2 exceeds
`poolSmall`'s maximum. -/
def inBig : InBuffer := ⟨⟨[0, 0], 0⟩, 0, false⟩

/-- Fixture: a live outgoing buffer with arena capacity 1. -/
def outSmall : OutBuffer := ⟨⟨[0], 0⟩, false, false, 0⟩

/-- Fixture: a live broadcast outgoing buffer with reference count 0. -/
def outBroadcast : OutBuffer := ⟨⟨[], 0⟩, false, true, 0⟩

/-- C1: the claim as stated is false on the code.  A buffer whose arena
capacity (2) exceeds the pool's configured maximum recyclable capacity
(1) is freed twice with no intervening acquire, and the second `Free`
silently succeeds (`isSome`) instead of panicking: the drop path of
`PutInBuffer` never sets the freed flag. -/
theorem claim1_counterexample :
    ((InBuffer.Free inBig poolSmall).bind (fun r => InBuffer.Free r.2 r.1)).isSome = true := by
  decide

/-- C1 (amended): a second `Free` without an intervening acquire panics
exactly when the first `Free` recycled the buffer; when the first `Free`
dropped the buffer for exceeding the maximum recyclable capacity, the
freed flag is left clear and the second `Free` silently drops it again.
Stated for both `InBuffer` and `OutBuffer`. -/
theorem claim1_amended :
    ∀ (pool q : bufferPool) (b : InBuffer) (o : OutBuffer),
      b.isFreed = false → o.isFreed = false →
      (InBuffer.Free b pool = some (pool.PutInBuffer b) ∧
        (b.Data.bcap ≤ pool.bufferMaxSize →
          InBuffer.Free (pool.PutInBuffer b).2 q = none) ∧
        (pool.bufferMaxSize < b.Data.bcap →
          InBuffer.Free (pool.PutInBuffer b).2 q = some (q.PutInBuffer b))) ∧
      (OutBuffer.Free o pool = some (pool.PutOutBuffer o) ∧
        (o.Data.bcap ≤ pool.bufferMaxSize →
          OutBuffer.Free (pool.PutOutBuffer o).2 q = none) ∧
        (pool.bufferMaxSize < o.Data.bcap →
          OutBuffer.Free (pool.PutOutBuffer o).2 q = some (q.PutOutBuffer o))) := by
  intro pool q b o hb ho
  refine ⟨⟨?_, ?_, ?_⟩, ?_, ?_, ?_⟩
  · simp [InBuffer.Free, hb]
  · intro hcap
    simp only [bufferPool.PutInBuffer]
    rw [if_neg (by omega)]
    simp [InBuffer.Free]
  · intro hcap
    simp only [bufferPool.PutInBuffer]
    rw [if_pos (by omega)]
    simp [InBuffer.Free, hb, bufferPool.PutInBuffer]
  · simp [OutBuffer.Free, ho]
  · intro hcap
    simp only [bufferPool.PutOutBuffer]
    rw [if_neg (by omega)]
    simp [OutBuffer.Free]
  · intro hcap
    simp only [bufferPool.PutOutBuffer]
    rw [if_pos (by omega)]
    simp [OutBuffer.Free, ho, bufferPool.PutOutBuffer]

/-- C1 witness: the amended theorem applied to concrete buffers — the
recycled small buffer panics on its second free. -/
theorem claim1_amended_witness :
    InBuffer.Free (poolSmall.PutInBuffer inSmall).2 poolSmall = none :=
  (claim1_amended poolSmall poolSmall inSmall outSmall rfl rfl).1.2.1 (by decide)

/-- C6: the claim as stated is false on the code.  One use and two
releases of a broadcast buffer: the second release (the over-release) is
silently ignored (`isSome`) rather than aborting — `broadcastFree` only
acts when the decremented count is exactly zero, so a count that has
already crossed zero is decremented to −1 and nothing else happens. -/
theorem claim6_counterexample :
    ((OutBuffer.broadcastFree (OutBuffer.broadcastUse outBroadcast)
        bufferPool.newBufferPool).bind
      (fun r => OutBuffer.broadcastFree r.2 r.1)).isSome = true := by
  decide

/-- C6 (amended): an over-release — a release called when every use has
already been matched by a release, so the reference count is at most
zero — is silently ignored: it only decrements the count below zero,
touches nothing else, and never reaches the fatal path. -/
theorem claim6_amended :
    ∀ (pool : bufferPool) (o : OutBuffer), o.refCount ≤ 0 →
      OutBuffer.broadcastFree o pool =
        some (pool, if o.isBroadcast then {o with refCount := o.refCount - 1} else o) := by
  intro pool o h
  by_cases hb : o.isBroadcast
  · simp only [OutBuffer.broadcastFree, hb, if_true]
    rw [if_neg (by omega)]
  · simp [OutBuffer.broadcastFree, hb]

/-- C6 witness: the amended theorem at the concrete broadcast buffer
with count 0. -/
theorem claim6_amended_witness :
    OutBuffer.broadcastFree outBroadcast bufferPool.newBufferPool =
      some (bufferPool.newBufferPool,
        if outBroadcast.isBroadcast then
          {outBroadcast with refCount := outBroadcast.refCount - 1}
        else outBroadcast) :=
  claim6_amended bufferPool.newBufferPool outBroadcast (by decide)

/-- C8: every pool release increments the global free counter; an arena
over the maximum recyclable capacity is counted as a drop and neither
shell nor arena is stored; otherwise the arena is truncated to length
zero and stored, the shell is stored, and the shell is marked freed.
Stated for both `PutInBuffer` and `PutOutBuffer`. -/
theorem claim8_release :
    ∀ (pool : bufferPool) (b : InBuffer) (o : OutBuffer),
      ((pool.PutInBuffer b).1.freeCount = pool.freeCount + 1 ∧
        (pool.bufferMaxSize < b.Data.bcap →
          (pool.PutInBuffer b).1.dropCount = pool.dropCount + 1 ∧
          (pool.PutInBuffer b).1.inList = pool.inList ∧
          (pool.PutInBuffer b).1.dataList = pool.dataList ∧
          (pool.PutInBuffer b).2 = b) ∧
        (b.Data.bcap ≤ pool.bufferMaxSize →
          (pool.PutInBuffer b).1.dropCount = pool.dropCount ∧
          (pool.PutInBuffer b).1.inList = (pool.PutInBuffer b).2 :: pool.inList ∧
          (pool.PutInBuffer b).1.dataList = b.Data.reslice 0 :: pool.dataList ∧
          (b.Data.reslice 0).len = 0 ∧
          (b.Data.reslice 0).bcap = b.Data.bcap ∧
          (pool.PutInBuffer b).2.isFreed = true)) ∧
      ((pool.PutOutBuffer o).1.freeCount = pool.freeCount + 1 ∧
        (pool.bufferMaxSize < o.Data.bcap →
          (pool.PutOutBuffer o).1.dropCount = pool.dropCount + 1 ∧
          (pool.PutOutBuffer o).1.outList = pool.outList ∧
          (pool.PutOutBuffer o).1.dataList = pool.dataList ∧
          (pool.PutOutBuffer o).2 = o) ∧
        (o.Data.bcap ≤ pool.bufferMaxSize →
          (pool.PutOutBuffer o).1.dropCount = pool.dropCount ∧
          (pool.PutOutBuffer o).1.outList = (pool.PutOutBuffer o).2 :: pool.outList ∧
          (pool.PutOutBuffer o).1.dataList = o.Data.reslice 0 :: pool.dataList ∧
          (o.Data.reslice 0).len = 0 ∧
          (o.Data.reslice 0).bcap = o.Data.bcap ∧
          (pool.PutOutBuffer o).2.isFreed = true)) := by
  intro pool b o
  refine ⟨⟨?_, fun hbig => ?_, fun hsmall => ?_⟩, ?_, fun hbig => ?_, fun hsmall => ?_⟩
  · by_cases h : pool.bufferMaxSize < b.Data.bcap <;>
      simp [bufferPool.PutInBuffer, h]
  · simp only [bufferPool.PutInBuffer]
    rw [if_pos hbig]
    simp
  · simp only [bufferPool.PutInBuffer]
    rw [if_neg (by omega)]
    simp [GoSlice.reslice, GoSlice.bcap]
  · by_cases h : pool.bufferMaxSize < o.Data.bcap <;>
      simp [bufferPool.PutOutBuffer, h]
  · simp only [bufferPool.PutOutBuffer]
    rw [if_pos hbig]
    simp
  · simp only [bufferPool.PutOutBuffer]
    rw [if_neg (by omega)]
    simp [GoSlice.reslice, GoSlice.bcap]

/-- C8 witness: the release facts at a concrete pool and concrete
buffers, both a recycled-size and an oversized one. -/
theorem claim8_release_witness :
    (poolSmall.PutInBuffer inSmall).1.freeCount = poolSmall.freeCount + 1 ∧
      (poolSmall.PutInBuffer inBig).1.dropCount = poolSmall.dropCount + 1 ∧
      (poolSmall.PutInBuffer inSmall).2.isFreed = true :=
  ⟨(claim8_release poolSmall inSmall outSmall).1.1,
    ((claim8_release poolSmall inBig outSmall).1.2.1 (by decide)).1,
    ((claim8_release poolSmall inSmall outSmall).1.2.2 (by decide)).2.2.2.2.2⟩

/-- C7: under the pool storage invariant — every stored incoming shell
has cursor 0 and every stored arena has length 0, which the release
operation establishes (conjuncts four to six) — every acquired
`InBuffer` has `ReadPos = 0`, a clear freed flag, and a length-0 arena,
and every acquired `OutBuffer` has a clear freed flag, a clear broadcast
flag, reference count 0, and a length-0 arena. -/
theorem claim7_acquire_reset :
    ∀ (pool : bufferPool) (b : InBuffer) (o : OutBuffer),
      ((∀ s ∈ pool.inList, s.ReadPos = 0) → (∀ a ∈ pool.dataList, a.len = 0) →
        (pool.GetInBuffer.2.ReadPos = 0 ∧ pool.GetInBuffer.2.isFreed = false ∧
          pool.GetInBuffer.2.Data.len = 0)) ∧
      ((∀ a ∈ pool.dataList, a.len = 0) →
        (pool.GetOutBuffer.2.isFreed = false ∧ pool.GetOutBuffer.2.isBroadcast = false ∧
          pool.GetOutBuffer.2.refCount = 0 ∧ pool.GetOutBuffer.2.Data.len = 0)) ∧
      ((∀ s ∈ pool.inList, s.ReadPos = 0) →
        ∀ s ∈ (pool.PutInBuffer b).1.inList, s.ReadPos = 0) ∧
      ((∀ a ∈ pool.dataList, a.len = 0) →
        ∀ a ∈ (pool.PutInBuffer b).1.dataList, a.len = 0) ∧
      ((∀ a ∈ pool.dataList, a.len = 0) →
        ∀ a ∈ (pool.PutOutBuffer o).1.dataList, a.len = 0) := by
  intro pool b o
  refine ⟨fun hin hdata => ⟨?_, ?_, ?_⟩, fun hdata => ⟨?_, ?_, ?_, ?_⟩, ?_, ?_, ?_⟩
  · unfold bufferPool.GetInBuffer bufferPool.getInShell bufferPool.getArena
    cases hl : pool.inList with
    | nil => simp
    | cons s rest =>
      have := hin s (by rw [hl]; exact List.mem_cons_self s rest)
      cases pool.dataList <;> simp [this]
  · unfold bufferPool.GetInBuffer bufferPool.getInShell bufferPool.getArena
    cases pool.inList <;> cases pool.dataList <;> simp
  · unfold bufferPool.GetInBuffer bufferPool.getInShell bufferPool.getArena
    cases pool.inList with
    | nil =>
      cases hl : pool.dataList with
      | nil => simp [GoSlice.mkCap]
      | cons a rest =>
        have := hdata a (by rw [hl]; exact List.mem_cons_self a rest)
        simp [this]
    | cons s rest =>
      cases hl : pool.dataList with
      | nil => simp [GoSlice.mkCap]
      | cons a rest2 =>
        have := hdata a (by rw [hl]; exact List.mem_cons_self a rest2)
        simp [this]
  · unfold bufferPool.GetOutBuffer bufferPool.getOutShell bufferPool.getArena
    cases pool.outList <;> cases pool.dataList <;> simp
  · unfold bufferPool.GetOutBuffer bufferPool.getOutShell bufferPool.getArena
    cases pool.outList <;> cases pool.dataList <;> simp
  · unfold bufferPool.GetOutBuffer bufferPool.getOutShell bufferPool.getArena
    cases pool.outList <;> cases pool.dataList <;> simp
  · unfold bufferPool.GetOutBuffer bufferPool.getOutShell bufferPool.getArena
    cases pool.outList with
    | nil =>
      cases hl : pool.dataList with
      | nil => simp [GoSlice.mkCap]
      | cons a rest =>
        have := hdata a (by rw [hl]; exact List.mem_cons_self a rest)
        simp [this]
    | cons s rest =>
      cases hl : pool.dataList with
      | nil => simp [GoSlice.mkCap]
      | cons a rest2 =>
        have := hdata a (by rw [hl]; exact List.mem_cons_self a rest2)
        simp [this]
  · intro hin
    unfold bufferPool.PutInBuffer
    by_cases h : pool.bufferMaxSize < b.Data.bcap
    · rw [if_pos h]; simpa using hin
    · rw [if_neg h]
      intro s hs
      rcases List.mem_cons.mp (by simpa using hs) with h1 | h1
      · rw [h1]
      · exact hin s h1
  · intro hdata
    unfold bufferPool.PutInBuffer
    by_cases h : pool.bufferMaxSize < b.Data.bcap
    · rw [if_pos h]; simpa using hdata
    · rw [if_neg h]
      intro a ha
      rcases List.mem_cons.mp (by simpa using ha) with h1 | h1
      · rw [h1]; rfl
      · exact hdata a h1
  · intro hdata
    unfold bufferPool.PutOutBuffer
    by_cases h : pool.bufferMaxSize < o.Data.bcap
    · rw [if_pos h]; simpa using hdata
    · rw [if_neg h]
      intro a ha
      rcases List.mem_cons.mp (by simpa using ha) with h1 | h1
      · rw [h1]; rfl
      · exact hdata a h1

/-- C7 witness: the acquire-reset facts at the empty freshly
constructed pool (both invariant hypotheses hold vacuously). -/
theorem claim7_acquire_reset_witness :
    bufferPool.newBufferPool.GetInBuffer.2.ReadPos = 0 ∧
      bufferPool.newBufferPool.GetOutBuffer.2.refCount = 0 :=
  ⟨((claim7_acquire_reset bufferPool.newBufferPool inSmall outSmall).1
      (by decide) (by decide)).1,
    ((claim7_acquire_reset bufferPool.newBufferPool inSmall outSmall).2.1
      (by decide)).2.2.1⟩

/-- C2: the protocol constructor forces an 8-byte header regardless of
the requested width, and for any other configured width the writer's
`EndPacket` and the reader's `ReadPacket` (once the header bytes have
been read) hit the `unsupported packet head size` panic. -/
theorem claim2_header_width_eight :
    (∀ (n : Nat) (bo : ByteOrder) (id : Int), (PacketN n bo id).n = 8) ∧
      (∀ (n : Nat) (bo : ByteOrder) (id : Int) (o : OutBuffer), n ≠ 8 →
        (NewPNWriter n bo id).EndPacket o = .panicUnsupportedHead) ∧
      (∀ (n : Nat) (bo : ByteOrder) (id : Int) (conn : List Nat) (buf : InBuffer),
        n ≠ 8 → n ≤ conn.length →
        (NewPNReader n bo id).ReadPacket conn buf = .panicHead) := by
  refine ⟨fun n bo id => rfl, fun n bo id o hn => ?_, fun n bo id conn buf hn hlen => ?_⟩
  · simp [PNWriter.EndPacket, NewPNWriter, OutBuffer.Len, hn]
  · simp only [PNReader.ReadPacket, NewPNReader, readFull, List.length_replicate]
    rw [if_pos hlen]
    simp [hn]

/-- C2 witness: requested width 2 — the protocol still stores 8, and a
width-2 writer and reader panic. -/
theorem claim2_header_width_eight_witness :
    (PacketN 2 ByteOrder.bigEndian 123).n = 8 ∧
      (NewPNWriter 2 ByteOrder.bigEndian 123).EndPacket outSmall = .panicUnsupportedHead ∧
      (NewPNReader 2 ByteOrder.bigEndian 123).ReadPacket [0, 0] (mkIn []) = .panicHead :=
  ⟨claim2_header_width_eight.1 2 ByteOrder.bigEndian 123,
    claim2_header_width_eight.2.1 2 ByteOrder.bigEndian 123 outSmall (by decide),
    claim2_header_width_eight.2.2 2 ByteOrder.bigEndian 123 [0, 0] (mkIn [])
      (by decide) (by decide)⟩

/-- C5: with a configured maximum `m > 0` and a fully read header whose
decoded length exceeds `m`, `ReadPacket` returns the distinct
`PacketTooLargeError` value, consumes exactly the 8 header bytes and no
payload byte, and leaves the supplied buffer unmodified. -/
theorem claim5_too_large :
    ∀ (bo : ByteOrder) (id : Int) (m : Nat) (head0 conn : List Nat) (buf : InBuffer),
      head0.length = 8 → 0 < m → 8 ≤ conn.length →
      m < bo.uint32 ((conn.take 8).drop 4) →
      PNReader.ReadPacket ⟨m, 8, bo, id, head0⟩ conn buf =
        .tooLarge ⟨m, 8, bo, id, conn.take 8⟩ (conn.drop 8) buf := by
  intro bo id m head0 conn buf hh hm hlen hsz
  simp only [PNReader.ReadPacket, readFull, hh]
  rw [if_pos hlen]
  simp [hm, hsz]

/-- C5 witness: maximum 100, header claiming length 101 (big endian):
the too-large return with the buffer untouched and only the header
consumed. -/
theorem claim5_too_large_witness :
    PNReader.ReadPacket ⟨100, 8, ByteOrder.bigEndian, 123, List.replicate 8 0⟩
        [0, 0, 0, 123, 0, 0, 0, 101, 9] (mkIn [5]) =
      .tooLarge ⟨100, 8, ByteOrder.bigEndian, 123, [0, 0, 0, 123, 0, 0, 0, 101]⟩ [9]
        (mkIn [5]) := by
  have := claim5_too_large ByteOrder.bigEndian 123 100 (List.replicate 8 0)
    [0, 0, 0, 123, 0, 0, 0, 101, 9] (mkIn [5]) (by decide) (by decide) (by decide) (by decide)
  simpa using this

/-- C9: when the source delivers fewer than the 8 header bytes before
end of stream, `ReadPacket` returns the `io.ReadFull` transport error
(`io.EOF` on an empty source, `io.ErrUnexpectedEOF` after a partial
header), consuming the delivered bytes into the header scratch and
leaving the supplied buffer unmodified — in particular it is not the
too-large condition and no length is decoded. -/
theorem claim9_short_header :
    ∀ (bo : ByteOrder) (id : Int) (m : Nat) (head0 conn : List Nat) (buf : InBuffer),
      head0.length = 8 → conn.length < 8 →
      PNReader.ReadPacket ⟨m, 8, bo, id, head0⟩ conn buf =
        .err (if conn.length = 0 then IOErr.eof else IOErr.unexpectedEOF)
          ⟨m, 8, bo, id, conn ++ head0.drop conn.length⟩ [] buf := by
  intro bo id m head0 conn buf hh hlen
  simp only [PNReader.ReadPacket, readFull, hh]
  rw [if_neg (by omega)]
  by_cases h0 : conn.length = 0 <;> simp [h0]

/-- C9 witness: a source closing after 3 of 8 header bytes yields the
partial-read transport error with the buffer untouched. -/
theorem claim9_short_header_witness :
    PNReader.ReadPacket ⟨0, 8, ByteOrder.bigEndian, 123, List.replicate 8 0⟩
        [1, 2, 3] (mkIn [5]) =
      .err IOErr.unexpectedEOF
        ⟨0, 8, ByteOrder.bigEndian, 123, [1, 2, 3, 0, 0, 0, 0, 0]⟩ [] (mkIn [5]) := by
  have := claim9_short_header ByteOrder.bigEndian 123 0 (List.replicate 8 0)
    [1, 2, 3] (mkIn [5]) (by decide) (by decide)
  simpa using this

/-- C10: on a decoded payload length of zero, `ReadPacket` succeeds
immediately and returns the supplied buffer exactly as it was —
`Prepare` is never called, so the arena keeps its previous length and
contents (the residual bytes of whatever it previously held). -/
theorem claim10_zero_length :
    ∀ (bo : ByteOrder) (id : Int) (m : Nat) (head0 conn : List Nat) (buf : InBuffer),
      head0.length = 8 → 8 ≤ conn.length →
      bo.uint32 ((conn.take 8).drop 4) = 0 →
      PNReader.ReadPacket ⟨m, 8, bo, id, head0⟩ conn buf =
        .ok ⟨m, 8, bo, id, conn.take 8⟩ (conn.drop 8) buf := by
  intro bo id m head0 conn buf hh hlen hsz
  simp only [PNReader.ReadPacket, readFull, hh]
  rw [if_pos hlen]
  simp [hsz]

/-- C10 witness: a zero-length frame leaves the residual bytes `[5, 6]`
of the previously held arena visible in the returned buffer. -/
theorem claim10_zero_length_witness :
    PNReader.ReadPacket ⟨0, 8, ByteOrder.bigEndian, 123, List.replicate 8 0⟩
        [0, 0, 0, 123, 0, 0, 0, 0, 42] (mkIn [5, 6]) =
      .ok ⟨0, 8, ByteOrder.bigEndian, 123, [0, 0, 0, 123, 0, 0, 0, 0]⟩ [42]
        (mkIn [5, 6]) ∧ (mkIn [5, 6]).Data.view = [5, 6] := by
  have := claim10_zero_length ByteOrder.bigEndian 123 0 (List.replicate 8 0)
    [0, 0, 0, 123, 0, 0, 0, 0, 42] (mkIn [5, 6]) (by decide) (by decide) (by decide)
  exact ⟨by simpa using this, by decide⟩

/-- After `BeginPacket` on an 8-byte-header writer, the arena is an
8-byte zero header followed by some backing bytes, with visible length
8. -/
theorem beginPacket_shape (w : PNWriter) (hn : w.n = 8) (size0 : Nat) (o : OutBuffer) :
    ∃ xs, (w.BeginPacket size0 o).Data = ⟨List.replicate 8 0 ++ xs, 8⟩ := by
  unfold PNWriter.BeginPacket OutBuffer.PrepareHead
  rw [hn]
  by_cases hcap : o.Data.bcap < 8 + size0
  · rw [if_pos hcap]
    exact ⟨List.replicate size0 0, by rw [← List.replicate_add]⟩
  · rw [if_neg hcap]
    exact ⟨o.Data.arr.drop 8, rfl⟩

/-- Appending payload bytes to a slice holding an 8-byte header yields
visible length `8 + |p|`, with the payload starting at offset 8 of the
backing array. -/
theorem appendBytes_after_header (xs p : List Nat) :
    ((⟨List.replicate 8 0 ++ xs, 8⟩ : GoSlice).appendBytes p).len = 8 + p.length ∧
      ((((⟨List.replicate 8 0 ++ xs, 8⟩ : GoSlice).appendBytes p).arr.drop 8).take
        p.length) = p := by
  have htake : (List.replicate 8 (0:Nat) ++ xs).take 8 = List.replicate 8 0 := by
    simp
  unfold GoSlice.appendBytes
  by_cases hfit : 8 + p.length ≤ (List.replicate 8 (0:Nat) ++ xs).length
  · rw [if_pos hfit]
    refine ⟨rfl, ?_⟩
    simp only [htake, List.append_assoc]
    have hdrop : ((List.replicate 8 (0:Nat)) ++
        (p ++ (List.replicate 8 (0:Nat) ++ xs).drop (8 + p.length))).drop 8 =
        p ++ (List.replicate 8 (0:Nat) ++ xs).drop (8 + p.length) := by
      simp
    rw [hdrop]
    simp
  · rw [if_neg hfit]
    refine ⟨rfl, ?_⟩
    simp only [htake]
    have hdrop : ((List.replicate 8 (0:Nat)) ++ p).drop 8 = p := by
      simp
    rw [hdrop]
    simp

/-- C3: for an 8-byte-header writer, after `BeginPacket`, appending the
payload `p`, and `EndPacket`, the buffer's visible bytes are the
protocol id encoded as an unsigned 32-bit value in the configured byte
order at bytes 0-3, the payload length `|p|` likewise at bytes 4-7, and
then the payload; and when a maximum payload size is configured and the
payload exceeds it, `EndPacket` panics instead of stamping the header. -/
theorem claim3_end_packet :
    ∀ (bo : ByteOrder) (idn maxsize size0 : Nat) (o : OutBuffer) (p : List Nat),
      idn < 2 ^ 32 → p.length < 2 ^ 32 →
      (¬(0 < maxsize ∧ maxsize < p.length) →
        ∃ b3, (PNWriter.EndPacket ⟨maxsize, 8, bo, (idn : Int)⟩
            ((PNWriter.BeginPacket ⟨maxsize, 8, bo, (idn : Int)⟩ size0 o).Append p)) =
            .ok b3 ∧
          b3.Data.view = bo.putUint32Bytes idn ++ bo.putUint32Bytes p.length ++ p) ∧
      (0 < maxsize ∧ maxsize < p.length →
        PNWriter.EndPacket ⟨maxsize, 8, bo, (idn : Int)⟩
            ((PNWriter.BeginPacket ⟨maxsize, 8, bo, (idn : Int)⟩ size0 o).Append p) =
          .panicTooLarge) := by
  intro bo idn maxsize size0 o p hid hp
  obtain ⟨xs, hxs⟩ :=
    beginPacket_shape ⟨maxsize, 8, bo, (idn : Int)⟩ rfl size0 o
  set b2 := (PNWriter.BeginPacket ⟨maxsize, 8, bo, (idn : Int)⟩ size0 o).Append p with hb2
  have hdata : b2.Data = (⟨List.replicate 8 0 ++ xs, 8⟩ : GoSlice).appendBytes p := by
    rw [hb2]
    unfold OutBuffer.Append
    rw [hxs]
  have hlen : b2.Data.len = 8 + p.length := by
    rw [hdata]
    exact (appendBytes_after_header xs p).1
  have hdrop : (b2.Data.arr.drop 8).take p.length = p := by
    rw [hdata]
    exact (appendBytes_after_header xs p).2
  have hlen4 : ∀ v : Nat, (bo.putUint32Bytes v).length = 4 := by
    intro v
    cases bo <;> rfl
  have hid32 : (((idn : Nat) : Int) % 2 ^ 32).toNat = idn := by omega
  have hsz32 : ((((b2.Data.len : Nat) : Int) - (((8 : Nat) : Nat) : Int)) % 2 ^ 32).toNat
      = p.length := by
    rw [hlen]
    omega
  constructor
  · intro hnotmax
    simp only [PNWriter.EndPacket, OutBuffer.Len]
    split_ifs with c1 c2
    · exfalso
      rcases c1 with ⟨cm, cs⟩
      rw [hlen] at cs
      exact hnotmax ⟨cm, by omega⟩
    · refine ⟨_, rfl, ?_⟩
      rw [hid32, hsz32]
      simp only [GoSlice.view, hlen]
      have h8 : (bo.putUint32Bytes idn ++ bo.putUint32Bytes p.length).length = 8 := by
        simp [hlen4]
      have htk := @List.take_append Nat
        (bo.putUint32Bytes idn ++ bo.putUint32Bytes p.length) (b2.Data.arr.drop 8) p.length
      rw [h8] at htk
      rw [htk, hdrop]
    · exfalso
      rw [hlen] at c2
      omega
  · intro hmax
    have hm2 : maxsize < p.length := hmax.2
    have hcond : ((maxsize : Nat) : Int) < ((b2.Data.len : Nat) : Int) -
        (((8 : Nat) : Nat) : Int) := by
      rw [hlen]
      omega
    simp only [PNWriter.EndPacket, OutBuffer.Len]
    split_ifs with c1
    · rfl
    all_goals exact absurd ⟨hmax.1, hcond⟩ c1

/-- C3 witness: big-endian id 123, payload `[10, 20, 30]`, no size
limit: the frame bytes are id, length 3, then the payload; with maximum
payload size 2 the same flow panics. -/
theorem claim3_end_packet_witness :
    (∃ b3, PNWriter.EndPacket ⟨0, 8, ByteOrder.bigEndian, (123 : Int)⟩
        ((PNWriter.BeginPacket ⟨0, 8, ByteOrder.bigEndian, (123 : Int)⟩ 3 outSmall).Append
          [10, 20, 30]) = .ok b3 ∧
      b3.Data.view = ByteOrder.bigEndian.putUint32Bytes 123 ++
        ByteOrder.bigEndian.putUint32Bytes 3 ++ [10, 20, 30]) ∧
    PNWriter.EndPacket ⟨2, 8, ByteOrder.bigEndian, (123 : Int)⟩
        ((PNWriter.BeginPacket ⟨2, 8, ByteOrder.bigEndian, (123 : Int)⟩ 3 outSmall).Append
          [10, 20, 30]) = .panicTooLarge :=
  ⟨by
    have h := (claim3_end_packet ByteOrder.bigEndian 123 0 3 outSmall [10, 20, 30]
      (by decide) (by decide)).1 (by decide)
    simpa using h,
    (claim3_end_packet ByteOrder.bigEndian 123 2 3 outSmall [10, 20, 30]
      (by decide) (by decide)).2 (by decide)⟩

/-- Appending to a zero-length arena makes exactly the appended bytes
visible. -/
theorem view_append_len_zero (s : GoSlice) (h : s.len = 0) (p : List Nat) :
    (s.appendBytes p).view = p := by
  unfold GoSlice.appendBytes GoSlice.view
  rw [h]
  by_cases hfit : 0 + p.length ≤ s.arr.length
  · rw [if_pos hfit]
    simp [List.take_left']
  · rw [if_neg hfit]
    simp [List.take_left']

/-- `Slice` on a buffer holding exactly `l` with the cursor at the
start returns the first `n` bytes and advances the cursor. -/
theorem mkIn_slice (l : List Nat) (n : Nat) (h : n ≤ l.length) :
    (mkIn l).Slice n = some (l.take n, {mkIn l with ReadPos := n}) := by
  unfold mkIn InBuffer.Slice GoSlice.bcap
  rw [if_pos (by simpa using h)]
  simp

/-- `ReadRune` on a buffer holding exactly `l` with the cursor at the
start decodes from `l` itself. -/
theorem mkIn_readRune (l : List Nat) :
    (mkIn l).ReadRune =
      ((Utf8.decodeRune l).1, {mkIn l with ReadPos := (Utf8.decodeRune l).2}) := by
  unfold mkIn InBuffer.ReadRune GoSlice.view
  simp

/-- Round trip of `WriteUint8` with `ReadUint8` on a fresh buffer. -/
theorem roundtrip_uint8 (o : OutBuffer) (h : o.Data.len = 0) (v : Nat) (hv : v < 2 ^ 8) :
    ∃ b, (mkIn ((o.WriteUint8 v).Data.view)).ReadUint8 = some (v, b) := by
  refine ⟨{mkIn ((o.WriteUint8 v).Data.view) with ReadPos := 1}, ?_⟩
  rw [show (o.WriteUint8 v).Data.view = [v % 2 ^ 8] from view_append_len_zero o.Data h _]
  unfold InBuffer.ReadUint8
  rw [mkIn_slice _ 1 (by simp)]
  simp
  omega

/-- Round trip of `WriteUint16LE` with `ReadUint16LE`. -/
theorem roundtrip_uint16le (o : OutBuffer) (h : o.Data.len = 0) (v : Nat) (hv : v < 2 ^ 16) :
    ∃ b, (mkIn ((o.WriteUint16LE v).Data.view)).ReadUint16LE = some (v, b) := by
  refine ⟨{mkIn ((o.WriteUint16LE v).Data.view) with ReadPos := 2}, ?_⟩
  rw [show (o.WriteUint16LE v).Data.view = [v % 2 ^ 8, v / 2 ^ 8 % 2 ^ 8] from
    view_append_len_zero o.Data h _]
  unfold InBuffer.ReadUint16LE
  rw [mkIn_slice _ 2 (by simp)]
  simp [ByteOrder.uint16]
  omega

/-- Round trip of `WriteUint16BE` with `ReadUint16BE`. -/
theorem roundtrip_uint16be (o : OutBuffer) (h : o.Data.len = 0) (v : Nat) (hv : v < 2 ^ 16) :
    ∃ b, (mkIn ((o.WriteUint16BE v).Data.view)).ReadUint16BE = some (v, b) := by
  refine ⟨{mkIn ((o.WriteUint16BE v).Data.view) with ReadPos := 2}, ?_⟩
  rw [show (o.WriteUint16BE v).Data.view = [v / 2 ^ 8 % 2 ^ 8, v % 2 ^ 8] from
    view_append_len_zero o.Data h _]
  unfold InBuffer.ReadUint16BE
  rw [mkIn_slice _ 2 (by simp)]
  simp [ByteOrder.uint16]
  omega

/-- Round trip of `WriteUint32LE` with `ReadUint32LE`. -/
theorem roundtrip_uint32le (o : OutBuffer) (h : o.Data.len = 0) (v : Nat) (hv : v < 2 ^ 32) :
    ∃ b, (mkIn ((o.WriteUint32LE v).Data.view)).ReadUint32LE = some (v, b) := by
  refine ⟨{mkIn ((o.WriteUint32LE v).Data.view) with ReadPos := 4}, ?_⟩
  rw [show (o.WriteUint32LE v).Data.view =
    [v % 2 ^ 8, v / 2 ^ 8 % 2 ^ 8, v / 2 ^ 16 % 2 ^ 8, v / 2 ^ 24 % 2 ^ 8] from
    view_append_len_zero o.Data h _]
  unfold InBuffer.ReadUint32LE
  rw [mkIn_slice _ 4 (by simp)]
  simp [ByteOrder.uint32]
  omega

/-- Round trip of `WriteUint32BE` with `ReadUint32BE`. -/
theorem roundtrip_uint32be (o : OutBuffer) (h : o.Data.len = 0) (v : Nat) (hv : v < 2 ^ 32) :
    ∃ b, (mkIn ((o.WriteUint32BE v).Data.view)).ReadUint32BE = some (v, b) := by
  refine ⟨{mkIn ((o.WriteUint32BE v).Data.view) with ReadPos := 4}, ?_⟩
  rw [show (o.WriteUint32BE v).Data.view =
    [v / 2 ^ 24 % 2 ^ 8, v / 2 ^ 16 % 2 ^ 8, v / 2 ^ 8 % 2 ^ 8, v % 2 ^ 8] from
    view_append_len_zero o.Data h _]
  unfold InBuffer.ReadUint32BE
  rw [mkIn_slice _ 4 (by simp)]
  simp [ByteOrder.uint32]
  omega

/-- Round trip of `WriteUint64LE` with `ReadUint64LE`. -/
theorem roundtrip_uint64le (o : OutBuffer) (h : o.Data.len = 0) (v : Nat) (hv : v < 2 ^ 64) :
    ∃ b, (mkIn ((o.WriteUint64LE v).Data.view)).ReadUint64LE = some (v, b) := by
  refine ⟨{mkIn ((o.WriteUint64LE v).Data.view) with ReadPos := 8}, ?_⟩
  rw [show (o.WriteUint64LE v).Data.view =
    [v % 2 ^ 8, v / 2 ^ 8 % 2 ^ 8, v / 2 ^ 16 % 2 ^ 8, v / 2 ^ 24 % 2 ^ 8,
      v / 2 ^ 32 % 2 ^ 8, v / 2 ^ 40 % 2 ^ 8, v / 2 ^ 48 % 2 ^ 8, v / 2 ^ 56 % 2 ^ 8] from
    view_append_len_zero o.Data h _]
  unfold InBuffer.ReadUint64LE
  rw [mkIn_slice _ 8 (by simp)]
  simp [ByteOrder.uint64]
  omega

/-- Round trip of `WriteUint64BE` with `ReadUint64BE`. -/
theorem roundtrip_uint64be (o : OutBuffer) (h : o.Data.len = 0) (v : Nat) (hv : v < 2 ^ 64) :
    ∃ b, (mkIn ((o.WriteUint64BE v).Data.view)).ReadUint64BE = some (v, b) := by
  refine ⟨{mkIn ((o.WriteUint64BE v).Data.view) with ReadPos := 8}, ?_⟩
  rw [show (o.WriteUint64BE v).Data.view =
    [v / 2 ^ 56 % 2 ^ 8, v / 2 ^ 48 % 2 ^ 8, v / 2 ^ 40 % 2 ^ 8, v / 2 ^ 32 % 2 ^ 8,
      v / 2 ^ 24 % 2 ^ 8, v / 2 ^ 16 % 2 ^ 8, v / 2 ^ 8 % 2 ^ 8, v % 2 ^ 8] from
    view_append_len_zero o.Data h _]
  unfold InBuffer.ReadUint64BE
  rw [mkIn_slice _ 8 (by simp)]
  simp [ByteOrder.uint64]
  omega

/-- Round trip of `WriteFloat32LE` with `ReadFloat32LE`, values compared
as bit patterns. -/
theorem roundtrip_float32le (o : OutBuffer) (h : o.Data.len = 0) (f : Nat) (hf : f < 2 ^ 32) :
    ∃ b, (mkIn ((o.WriteFloat32LE f).Data.view)).ReadFloat32LE = some (f, b) := by
  obtain ⟨b, hb⟩ := roundtrip_uint32le o h (Float32bits f)
    (by unfold Float32bits; omega)
  refine ⟨b, ?_⟩
  show (mkIn ((o.WriteUint32LE (Float32bits f)).Data.view)).ReadFloat32LE = some (f, b)
  unfold InBuffer.ReadFloat32LE
  rw [hb]
  simp only [Option.map_some']
  unfold Float32frombits Float32bits
  rw [Nat.mod_eq_of_lt hf]

/-- Round trip of `WriteFloat32BE` with `ReadFloat32BE`. -/
theorem roundtrip_float32be (o : OutBuffer) (h : o.Data.len = 0) (f : Nat) (hf : f < 2 ^ 32) :
    ∃ b, (mkIn ((o.WriteFloat32BE f).Data.view)).ReadFloat32BE = some (f, b) := by
  obtain ⟨b, hb⟩ := roundtrip_uint32be o h (Float32bits f)
    (by unfold Float32bits; omega)
  refine ⟨b, ?_⟩
  show (mkIn ((o.WriteUint32BE (Float32bits f)).Data.view)).ReadFloat32BE = some (f, b)
  unfold InBuffer.ReadFloat32BE
  rw [hb]
  simp only [Option.map_some']
  unfold Float32frombits Float32bits
  rw [Nat.mod_eq_of_lt hf]

/-- Round trip of `WriteFloat64LE` with `ReadFloat64LE`. -/
theorem roundtrip_float64le (o : OutBuffer) (h : o.Data.len = 0) (f : Nat) (hf : f < 2 ^ 64) :
    ∃ b, (mkIn ((o.WriteFloat64LE f).Data.view)).ReadFloat64LE = some (f, b) := by
  obtain ⟨b, hb⟩ := roundtrip_uint64le o h (Float64bits f)
    (by unfold Float64bits; omega)
  refine ⟨b, ?_⟩
  show (mkIn ((o.WriteUint64LE (Float64bits f)).Data.view)).ReadFloat64LE = some (f, b)
  unfold InBuffer.ReadFloat64LE
  rw [hb]
  simp only [Option.map_some']
  unfold Float64frombits Float64bits
  rw [Nat.mod_eq_of_lt hf]

/-- Round trip of `WriteFloat64BE` with `ReadFloat64BE`. -/
theorem roundtrip_float64be (o : OutBuffer) (h : o.Data.len = 0) (f : Nat) (hf : f < 2 ^ 64) :
    ∃ b, (mkIn ((o.WriteFloat64BE f).Data.view)).ReadFloat64BE = some (f, b) := by
  obtain ⟨b, hb⟩ := roundtrip_uint64be o h (Float64bits f)
    (by unfold Float64bits; omega)
  refine ⟨b, ?_⟩
  show (mkIn ((o.WriteUint64BE (Float64bits f)).Data.view)).ReadFloat64BE = some (f, b)
  unfold InBuffer.ReadFloat64BE
  rw [hb]
  simp only [Option.map_some']
  unfold Float64frombits Float64bits
  rw [Nat.mod_eq_of_lt hf]

/-- Round trip of `WriteBytes` with `ReadBytes`. -/
theorem roundtrip_bytes (o : OutBuffer) (h : o.Data.len = 0) (d : List Nat) :
    ∃ b, (mkIn ((o.WriteBytes d).Data.view)).ReadBytes d.length = some (d, b) := by
  refine ⟨{mkIn ((o.WriteBytes d).Data.view) with ReadPos := d.length}, ?_⟩
  rw [show (o.WriteBytes d).Data.view = d from view_append_len_zero o.Data h d]
  unfold InBuffer.ReadBytes
  rw [mkIn_slice d d.length le_rfl]
  simp

/-- Round trip of `WriteString` with `ReadString` (strings as their
bytes). -/
theorem roundtrip_string (o : OutBuffer) (h : o.Data.len = 0) (s : List Nat) :
    ∃ b, (mkIn ((o.WriteString s).Data.view)).ReadString s.length = some (s, b) := by
  refine ⟨{mkIn ((o.WriteString s).Data.view) with ReadPos := s.length}, ?_⟩
  rw [show (o.WriteString s).Data.view = s from view_append_len_zero o.Data h s]
  unfold InBuffer.ReadString
  rw [mkIn_slice s s.length le_rfl]
  simp

/-- Round trip of `WriteRune` with `ReadRune`, for every valid Unicode
scalar value (in range and not a surrogate). -/
theorem roundtrip_rune (o : OutBuffer) (h : o.Data.len = 0) (u : Nat)
    (hu : u < 0x110000) (hs : ¬(0xD800 ≤ u ∧ u ≤ 0xDFFF)) :
    ∃ b, (mkIn ((o.WriteRune (u : Int)).Data.view)).ReadRune = (u, b) := by
  have htn : (((u : Nat) : Int) % 2 ^ 32).toNat = u := by omega
  have herr : ¬(0x10FFFF < u ∨ (0xD800 ≤ u ∧ u ≤ 0xDFFF)) := by
    rintro (hc | hc)
    · omega
    · exact hs hc
  have henc : Utf8.encodeRune (u : Int) =
      (if u < 0x80 then [u]
       else if u < 0x800 then [0xC0 + u / 64, 0x80 + u % 64]
       else if u < 0x10000 then [0xE0 + u / 4096, 0x80 + u / 64 % 64, 0x80 + u % 64]
       else [0xF0 + u / 262144, 0x80 + u / 4096 % 64, 0x80 + u / 64 % 64,
         0x80 + u % 64]) := by
    simp only [Utf8.encodeRune, htn]
    rw [if_neg herr]
  have hview : (o.WriteRune (u : Int)).Data.view = Utf8.encodeRune (u : Int) :=
    view_append_len_zero o.Data h _
  by_cases h1 : u < 0x80
  · refine ⟨{mkIn ((o.WriteRune (u : Int)).Data.view) with ReadPos := 1}, ?_⟩
    rw [hview, henc, if_pos h1, mkIn_readRune]
    have hd : Utf8.decodeRune [u] = (u, 1) := by
      simp only [Utf8.decodeRune]
      rw [if_pos h1]
    rw [hd]
  · by_cases h2 : u < 0x800
    · refine ⟨{mkIn ((o.WriteRune (u : Int)).Data.view) with ReadPos := 2}, ?_⟩
      rw [hview, henc, if_neg h1, if_pos h2, mkIn_readRune]
      have hd : Utf8.decodeRune [0xC0 + u / 64, 0x80 + u % 64] = (u, 2) := by
        simp only [Utf8.decodeRune]
        rw [if_neg (by omega), if_neg (by omega), if_pos (by omega), if_neg (by omega)]
        have hv : (0xC0 + u / 64) % 32 * 64 + (0x80 + u % 64) % 64 = u := by omega
        rw [hv]
      rw [hd]
    · by_cases h3 : u < 0x10000
      · refine ⟨{mkIn ((o.WriteRune (u : Int)).Data.view) with ReadPos := 3}, ?_⟩
        rw [hview, henc, if_neg h1, if_neg h2, if_pos h3, mkIn_readRune]
        have hb1 : ¬((0x80 + u / 64 % 64) < Utf8.acceptLo (0xE0 + u / 4096) ∨
            Utf8.acceptHi (0xE0 + u / 4096) < (0x80 + u / 64 % 64)) := by
          unfold Utf8.acceptLo Utf8.acceptHi
          split_ifs <;> omega
        have hd : Utf8.decodeRune
            [0xE0 + u / 4096, 0x80 + u / 64 % 64, 0x80 + u % 64] = (u, 3) := by
          simp only [Utf8.decodeRune]
          rw [if_neg (by omega), if_neg (by omega), if_neg (by omega), if_pos (by omega),
            if_neg hb1, if_neg (by omega)]
          have hv : (0xE0 + u / 4096) % 16 * 4096 + (0x80 + u / 64 % 64) % 64 * 64 +
              (0x80 + u % 64) % 64 = u := by omega
          rw [hv]
        rw [hd]
      · refine ⟨{mkIn ((o.WriteRune (u : Int)).Data.view) with ReadPos := 4}, ?_⟩
        rw [hview, henc, if_neg h1, if_neg h2, if_neg h3, mkIn_readRune]
        have hb1 : ¬((0x80 + u / 4096 % 64) < Utf8.acceptLo (0xF0 + u / 262144) ∨
            Utf8.acceptHi (0xF0 + u / 262144) < (0x80 + u / 4096 % 64)) := by
          unfold Utf8.acceptLo Utf8.acceptHi
          split_ifs <;> omega
        have hd : Utf8.decodeRune
            [0xF0 + u / 262144, 0x80 + u / 4096 % 64, 0x80 + u / 64 % 64,
              0x80 + u % 64] = (u, 4) := by
          simp only [Utf8.decodeRune]
          rw [if_neg (by omega), if_neg (by omega), if_neg (by omega), if_neg (by omega),
            if_pos (by omega), if_neg hb1, if_neg (by omega), if_neg (by omega)]
          have hv : (0xF0 + u / 262144) % 8 * 262144 + (0x80 + u / 4096 % 64) % 64 * 4096 +
              (0x80 + u / 64 % 64) % 64 * 64 + (0x80 + u % 64) % 64 = u := by omega
          rw [hv]
        rw [hd]

/-- C4: every encode primitive of `OutBuffer` (raw byte append, bytes,
string, rune, unsigned integers of widths 1/2/4/8 in both byte orders,
and floats of both widths and orders as bit patterns), written into a
fresh buffer and decoded with the matching-width, matching-order
`InBuffer` primitive, yields the original value exactly, over the full
domain of each integer width, all 32- and 64-bit float bit patterns
(including 0, −0, NaN and the infinities), and all valid Unicode scalar
values for runes. -/
theorem claim4_roundtrip :
    ∀ (o : OutBuffer), o.Data.len = 0 →
      (∀ p : List Nat, ∃ b,
        (mkIn ((o.Append p).Data.view)).ReadBytes p.length = some (p, b)) ∧
      (∀ d : List Nat, ∃ b,
        (mkIn ((o.WriteBytes d).Data.view)).ReadBytes d.length = some (d, b)) ∧
      (∀ s : List Nat, ∃ b,
        (mkIn ((o.WriteString s).Data.view)).ReadString s.length = some (s, b)) ∧
      (∀ u : Nat, u < 0x110000 → ¬(0xD800 ≤ u ∧ u ≤ 0xDFFF) →
        ∃ b, (mkIn ((o.WriteRune (u : Int)).Data.view)).ReadRune = (u, b)) ∧
      (∀ v : Nat, v < 2 ^ 8 →
        ∃ b, (mkIn ((o.WriteUint8 v).Data.view)).ReadUint8 = some (v, b)) ∧
      (∀ v : Nat, v < 2 ^ 16 →
        ∃ b, (mkIn ((o.WriteUint16LE v).Data.view)).ReadUint16LE = some (v, b)) ∧
      (∀ v : Nat, v < 2 ^ 16 →
        ∃ b, (mkIn ((o.WriteUint16BE v).Data.view)).ReadUint16BE = some (v, b)) ∧
      (∀ v : Nat, v < 2 ^ 32 →
        ∃ b, (mkIn ((o.WriteUint32LE v).Data.view)).ReadUint32LE = some (v, b)) ∧
      (∀ v : Nat, v < 2 ^ 32 →
        ∃ b, (mkIn ((o.WriteUint32BE v).Data.view)).ReadUint32BE = some (v, b)) ∧
      (∀ v : Nat, v < 2 ^ 64 →
        ∃ b, (mkIn ((o.WriteUint64LE v).Data.view)).ReadUint64LE = some (v, b)) ∧
      (∀ v : Nat, v < 2 ^ 64 →
        ∃ b, (mkIn ((o.WriteUint64BE v).Data.view)).ReadUint64BE = some (v, b)) ∧
      (∀ f : Nat, f < 2 ^ 32 →
        ∃ b, (mkIn ((o.WriteFloat32LE f).Data.view)).ReadFloat32LE = some (f, b)) ∧
      (∀ f : Nat, f < 2 ^ 32 →
        ∃ b, (mkIn ((o.WriteFloat32BE f).Data.view)).ReadFloat32BE = some (f, b)) ∧
      (∀ f : Nat, f < 2 ^ 64 →
        ∃ b, (mkIn ((o.WriteFloat64LE f).Data.view)).ReadFloat64LE = some (f, b)) ∧
      (∀ f : Nat, f < 2 ^ 64 →
        ∃ b, (mkIn ((o.WriteFloat64BE f).Data.view)).ReadFloat64BE = some (f, b)) :=
  fun o h =>
    ⟨fun p => roundtrip_bytes o h p,
      fun d => roundtrip_bytes o h d,
      fun s => roundtrip_string o h s,
      fun u hu hs => roundtrip_rune o h u hu hs,
      fun v hv => roundtrip_uint8 o h v hv,
      fun v hv => roundtrip_uint16le o h v hv,
      fun v hv => roundtrip_uint16be o h v hv,
      fun v hv => roundtrip_uint32le o h v hv,
      fun v hv => roundtrip_uint32be o h v hv,
      fun v hv => roundtrip_uint64le o h v hv,
      fun v hv => roundtrip_uint64be o h v hv,
      fun f hf => roundtrip_float32le o h f hf,
      fun f hf => roundtrip_float32be o h f hf,
      fun f hf => roundtrip_float64le o h f hf,
      fun f hf => roundtrip_float64be o h f hf⟩

/-- C4 witness: the round trips at concrete inputs, including the NaN,
negative-zero and infinity bit patterns and a three-byte rune. -/
theorem claim4_roundtrip_witness :
    (∃ b, (mkIn ((outBroadcast.WriteUint16LE 0xBEEF).Data.view)).ReadUint16LE =
      some (0xBEEF, b)) ∧
    (∃ b, (mkIn ((outBroadcast.WriteUint64BE 0x0123456789ABCDEF).Data.view)).ReadUint64BE =
      some (0x0123456789ABCDEF, b)) ∧
    (∃ b, (mkIn ((outBroadcast.WriteFloat32LE 0x7FC00000).Data.view)).ReadFloat32LE =
      some (0x7FC00000, b)) ∧
    (∃ b, (mkIn ((outBroadcast.WriteFloat32BE 0x80000000).Data.view)).ReadFloat32BE =
      some (0x80000000, b)) ∧
    (∃ b, (mkIn ((outBroadcast.WriteFloat64LE 0x7FF0000000000000).Data.view)).ReadFloat64LE =
      some (0x7FF0000000000000, b)) ∧
    (∃ b, (mkIn ((outBroadcast.WriteFloat64BE 0x7FF8000000000001).Data.view)).ReadFloat64BE =
      some (0x7FF8000000000001, b)) ∧
    (∃ b, (mkIn ((outBroadcast.WriteRune (0x4E2D : Int)).Data.view)).ReadRune =
      (0x4E2D, b)) ∧
    (∃ b, (mkIn ((outBroadcast.WriteString [104, 105]).Data.view)).ReadString 2 =
      some ([104, 105], b)) :=
  ⟨(claim4_roundtrip outBroadcast rfl).2.2.2.2.2.1 0xBEEF (by decide),
    (claim4_roundtrip outBroadcast rfl).2.2.2.2.2.2.2.2.2.2.1 0x0123456789ABCDEF (by decide),
    (claim4_roundtrip outBroadcast rfl).2.2.2.2.2.2.2.2.2.2.2.1 0x7FC00000 (by decide),
    (claim4_roundtrip outBroadcast rfl).2.2.2.2.2.2.2.2.2.2.2.2.1 0x80000000 (by decide),
    (claim4_roundtrip outBroadcast rfl).2.2.2.2.2.2.2.2.2.2.2.2.2.1 0x7FF0000000000000
      (by decide),
    (claim4_roundtrip outBroadcast rfl).2.2.2.2.2.2.2.2.2.2.2.2.2.2 0x7FF8000000000001
      (by decide),
    (claim4_roundtrip outBroadcast rfl).2.2.2.1 0x4E2D (by decide) (by decide),
    by
      have hw := (claim4_roundtrip outBroadcast rfl).2.2.1 [104, 105]
      simpa using hw⟩
